import Mathlib

/-!
# Verification of the grid-game execution loop (`src/index.js`)

Shallow embedding of the host-side logic of the block-programming demo:
the host state (`current_state`, `inErrorState`), the host functions
exposed to the sandboxed interpreter (`moveForward`, the `alert` wrapper,
`waitForSeconds`), the goal check, the reset, and the stepwise execution
loop (`runCode` / `runner`).

Modelling conventions:
* DOM effects (`moveImage`, CSS classes, image sources) are pure rendering
  of the host state and are not modelled, except that the two observable
  output channels are kept: `alerts` records the strings passed to the
  browser `alert` dialog (by `moveForward`'s overshoot branch and by
  `checkGoalReached`), and `output` mirrors `outputArea.value`, which the
  interpreter-exposed `alert` wrapper appends to.
* The sandboxed program is modelled as a list of calls to the exposed API
  (`moveForward`, `alert(text)`, `waitForSeconds(t)`), which is exactly
  what the block generator can produce.
* The single-threaded event loop is modelled as a step function on a
  `World`; the `setTimeout` scheduling of the runner is a `runnerPending`
  flag consumed by `fireRunner`.  One `run()` slice of the js-interpreter
  executes statements up to the next asynchronous call (`waitForSeconds`)
  and reports `hasMore = true` there, `false` at the end of the program.
-/

/-- A grid position, as in `START_STATE` / `GOAL_STATE` / `current_state`. -/
structure Pos where
  x : Nat
  y : Nat
deriving DecidableEq, Repr

/-- `const ROWS = 3`. -/
def ROWS : Nat := 3

/-- `const COLS = 3`. -/
def COLS : Nat := 3

/-- `const START_STATE = { x: 0, y: 0 }`. -/
def START_STATE : Pos := { x := 0, y := 0 }

/-- `const GOAL_STATE = { x: 0, y: 2 }`. -/
def GOAL_STATE : Pos := { x := 0, y := 2 }

/-- The mutable host-side state: `current_state`, `inErrorState`, and the
two output channels (browser `alert` dialogs, and `outputArea.value`). -/
structure HostState where
  pos : Pos
  inErrorState : Bool
  alerts : List String
  output : String
deriving DecidableEq, Repr

/-- `function moveForward()`: no-op in the error state; otherwise advance
`y` if still inside the grid, else enter the error state and alert. -/
def moveForward (s : HostState) : HostState :=
  if s.inErrorState then s
  else if s.pos.y < COLS - 1 then
    { s with pos := { s.pos with y := s.pos.y + 1 } }
  else
    { s with inErrorState := true,
             alerts := s.alerts ++ ["uh oh! You have gone too far! Please try again."] }

/-- The `alert` wrapper installed by `initApi`: appends `"\n" + text` to
`outputArea.value`, with no error-state check. -/
def wrapperAlert (text : String) (s : HostState) : HostState :=
  { s with output := s.output ++ "\n" ++ text }

/-- `function checkGoalReached()`: silent in the error state; otherwise
alert whether `current_state` equals `GOAL_STATE`. -/
def checkGoalReached (s : HostState) : HostState :=
  if s.inErrorState then s
  else if s.pos.x = GOAL_STATE.x ∧ s.pos.y = GOAL_STATE.y then
    { s with alerts := s.alerts ++ ["You have reached the goal!"] }
  else
    { s with alerts := s.alerts ++ ["You have not reached the goal. Please try again."] }

/-- The host-state part of `function resetState()`: `current_state` back to
`START_STATE`, error flag cleared.  (`outputArea` is never cleared.) -/
def resetState (s : HostState) : HostState :=
  { s with pos := START_STATE, inErrorState := false }

/-- One call the generated program can make into the exposed API. -/
inductive Stmt where
  | move : Stmt
  | alertCall : String → Stmt
  | wait : Nat → Stmt
deriving DecidableEq, Repr

/-- Effect of one synchronous API call on the host state; `waitForSeconds`
only schedules its continuation and mutates nothing. -/
def execStmt (st : Stmt) (h : HostState) : HostState :=
  match st with
  | .move => moveForward h
  | .alertCall t => wrapperAlert t h
  | .wait _ => h

/-- Running the whole program's API calls in order (its denotation on the
host state, independent of slicing). -/
def runProgram : List Stmt → HostState → HostState
  | [], h => h
  | st :: rest, h => runProgram rest (execStmt st h)

/-- Number of `moveForward` calls a program makes. -/
def countMoves : List Stmt → Nat
  | [] => 0
  | .move :: rest => countMoves rest + 1
  | _ :: rest => countMoves rest

/-- One `myInterpreter.run()` slice: execute statements until the program
blocks on an asynchronous call or ends.  Returns the remaining program,
the updated host state, and the `hasMore` flag. -/
def interpRun : List Stmt → HostState → List Stmt × HostState × Bool
  | [], h => ([], h, false)
  | .wait _ :: rest, h => (rest, h, true)
  | .move :: rest, h => interpRun rest (moveForward h)
  | .alertCall t :: rest, h => interpRun rest (wrapperAlert t h)

/-- The sandboxed evaluator held in `myInterpreter`: a fresh id per
`new Interpreter(...)` plus the program still to execute. -/
structure Interp where
  id : Nat
  remaining : List Stmt
deriving DecidableEq, Repr

/-- The whole single-threaded world: host state, the `myInterpreter`
handle, whether a runner timeout is scheduled (`runnerPid`), the run
button's disabled attribute, and a fresh-id counter for evaluators. -/
structure World where
  host : HostState
  myInterpreter : Option Interp
  runnerPending : Bool
  runButtonDisabled : Bool
  nextId : Nat
deriving DecidableEq, Repr

/-- `function resetStepUi()`: clear the pending runner timeout
(`clearTimeout(runnerPid)`), re-enable the run button, drop the
interpreter handle.  In the source `runnerPid` only ever holds the id of
the polling resumption scheduled inside `runner()`; the startup timeout
of `runCode` has its id thrown away and is out of this function's reach —
see the refined `WorldT` model below for that distinction. -/
def resetStepUi (w : World) : World :=
  { w with runnerPending := false, runButtonDisabled := false, myInterpreter := none }

/-- `function resetState()` at world level: reset the host state, then
`resetStepUi()`. -/
def resetStateWorld (w : World) : World :=
  resetStepUi { w with host := resetState w.host }

/-- Number of live evaluator handles (the `myInterpreter` variable holds
at most one). -/
def activeHandleCount (w : World) : Nat :=
  match w.myInterpreter with
  | none => 0
  | some _ => 1

/-- One firing of `function runner()`: if a handle exists, advance the
interpreter by one slice; reschedule on `hasMore`, otherwise run the goal
check.  Note the handle is not dropped on completion. -/
def runnerStep (w : World) : World :=
  match w.myInterpreter with
  | none => w
  | some it =>
    let r := interpRun it.remaining w.host
    if r.2.2 then
      { w with host := r.2.1, myInterpreter := some { it with remaining := r.1 },
               runnerPending := true }
    else
      { w with host := checkGoalReached r.2.1,
               myInterpreter := some { it with remaining := r.1 },
               runnerPending := false }

/-- The scheduled runner timeout firing: a no-op unless one is pending. -/
def fireRunner (w : World) : World :=
  if w.runnerPending then runnerStep { w with runnerPending := false } else w

/-- `function runCode()`: reset the state (which also drops any handle and
pending timeout), then — the `!myInterpreter` guard, always true after the
reset — disable the run button and schedule a fresh evaluator for the
generated code.  The scheduled start (and the first `runner()` call inside
it) is folded into the pending runner timeout consumed by `fireRunner`;
this abstraction is faithful from the moment the startup has fired, and
the refined `WorldT` model below tracks the startup timeouts — whose ids
the source throws away, so no reset can clear them — exactly. -/
def runCode (prog : List Stmt) (w : World) : World :=
  let w1 := resetStateWorld w
  if w1.myInterpreter.isNone then
    { w1 with runButtonDisabled := true,
              myInterpreter := some { id := w1.nextId, remaining := prog },
              nextId := w1.nextId + 1,
              runnerPending := true }
  else w1

/-- The world right after the startup code (`initImages(); initButtons();
drawGrid(); resetState();`). -/
def initialWorld : World :=
  { host := { pos := START_STATE, inErrorState := false, alerts := [], output := "" },
    myInterpreter := none,
    runnerPending := false,
    runButtonDisabled := false,
    nextId := 0 }

/-- The externally triggered events: the run button, the reset button, and
a scheduled runner timeout firing. -/
inductive Ev where
  | runReq : List Stmt → Ev
  | resetReq : Ev
  | tick : Ev

/-- Dispatch of one event on the single-threaded loop. -/
def stepEv (w : World) (e : Ev) : World :=
  match e with
  | .runReq p => runCode p w
  | .resetReq => resetStateWorld w
  | .tick => fireRunner w

/-- The world reached from startup by a sequence of events. -/
def runEvents (es : List Ev) : World :=
  es.foldl stepEv initialWorld

/-- A concrete host state at the far edge of the grid (`y = COLS - 1`),
error flag clear: the state from which the next `moveForward` overshoots. -/
def boundaryHost : HostState :=
  { pos := { x := 0, y := 2 }, inErrorState := false, alerts := [], output := "" }

/-- A concrete world mid-run: the program `[move; wait 1; move]` started
and advanced one slice, so a run is active (handle present, resumption
pending) and its first `moveForward` has already mutated the host. -/
def midRunWorld : World :=
  fireRunner (runCode [Stmt.move, Stmt.wait 1, Stmt.move] initialWorld)

/-! ### A refined world: the un-cancellable startup timeout

`runCode` schedules its startup callback with `setTimeout(..., 1)` and
throws the returned timeout id away, while `resetStepUi` only ever clears
`runnerPid` — the id assigned inside `runner()` when it re-schedules the
polling resumption.  A startup timeout that has not yet fired therefore
survives every reset.  The `World` model above folds the scheduled start
into the clearable `runnerPending` flag, which is faithful from the
moment the startup has fired; the refined `WorldT` below additionally
carries the queue of scheduled startup callbacks (each holding the code
generated at its request), which no reset can clear. -/

/-- The world together with the queue of scheduled startup timeouts. -/
structure WorldT where
  host : HostState
  myInterpreter : Option Interp
  runnerPending : Bool
  runButtonDisabled : Bool
  nextId : Nat
  pendingStarts : List (List Stmt)
deriving DecidableEq, Repr

/-- `resetStepUi()` on the refined world: `clearTimeout(runnerPid)` clears
only the polling resumption; the startup queue is untouched. -/
def resetStepUiT (w : WorldT) : WorldT :=
  { w with runnerPending := false, runButtonDisabled := false, myInterpreter := none }

/-- `resetState()` on the refined world. -/
def resetStateWorldT (w : WorldT) : WorldT :=
  resetStepUiT { w with host := resetState w.host }

/-- One firing of `runner()` on the refined world (same as `runnerStep`;
it never touches the startup queue). -/
def runnerStepT (w : WorldT) : WorldT :=
  match w.myInterpreter with
  | none => w
  | some it =>
    let r := interpRun it.remaining w.host
    if r.2.2 then
      { w with host := r.2.1, myInterpreter := some { it with remaining := r.1 },
               runnerPending := true }
    else
      { w with host := checkGoalReached r.2.1,
               myInterpreter := some { it with remaining := r.1 },
               runnerPending := false }

/-- The scheduled polling resumption firing, on the refined world. -/
def fireRunnerT (w : WorldT) : WorldT :=
  if w.runnerPending then runnerStepT { w with runnerPending := false } else w

/-- `runCode()` on the refined world: reset, then append the startup
callback for the freshly generated code to the timer queue.  The
interpreter itself is only created when that startup fires. -/
def runCodeT (prog : List Stmt) (w : WorldT) : WorldT :=
  let w1 := resetStateWorldT w
  if w1.myInterpreter.isNone then
    { w1 with runButtonDisabled := true,
              pendingStarts := w1.pendingStarts ++ [prog] }
  else w1

/-- The oldest scheduled startup timeout firing:
`myInterpreter = new Interpreter(latestCode, initApi); runner();` —
whether or not the run it belongs to has been reset away meanwhile. -/
def fireStart (w : WorldT) : WorldT :=
  match w.pendingStarts with
  | [] => w
  | prog :: rest =>
    runnerStepT { w with pendingStarts := rest,
                         myInterpreter := some { id := w.nextId, remaining := prog },
                         nextId := w.nextId + 1 }

/-- The refined world right after startup. -/
def initialWorldT : WorldT :=
  { host := { pos := START_STATE, inErrorState := false, alerts := [], output := "" },
    myInterpreter := none,
    runnerPending := false,
    runButtonDisabled := false,
    nextId := 0,
    pendingStarts := [] }

/-! ### Helper lemmas about the host functions -/

/-- Once the error flag is set, `moveForward` is the identity. -/
theorem moveForward_error_noop (h : HostState) (he : h.inErrorState = true) :
    moveForward h = h := by
  simp [moveForward, he]

/-- A single API call never changes the position or the error flag once
the error flag is set. -/
theorem execStmt_error_frame (st : Stmt) (h : HostState) (he : h.inErrorState = true) :
    (execStmt st h).pos = h.pos ∧ (execStmt st h).inErrorState = true := by
  cases st with
  | move => simp [execStmt, moveForward_error_noop h he, he]
  | alertCall t => simp [execStmt, wrapperAlert, he]
  | wait n => simp [execStmt, he]

/-- Once the error flag is set, running any program leaves the position
unchanged and the flag set. -/
theorem runProgram_error_frame (p : List Stmt) (h : HostState) (he : h.inErrorState = true) :
    (runProgram p h).pos = h.pos ∧ (runProgram p h).inErrorState = true := by
  induction p generalizing h with
  | nil => exact ⟨rfl, he⟩
  | cons st rest ih =>
    obtain ⟨h1, h2⟩ := execStmt_error_frame st h he
    obtain ⟨h3, h4⟩ := ih (execStmt st h) h2
    exact ⟨h1 ▸ h3, h4⟩

/-! ### C1: counting forward moves -/

/-- C1: from any grid position with `y`-coordinate `initial_y` and the
error flag clear, a program calling `moveForward` exactly `k` times (and
making no other position- or flag-mutating calls) ends with
`y = min (initial_y + k) (COLS - 1)`, and the error flag set iff
`initial_y + k` exceeds `COLS - 1`. -/
theorem runProgram_moveForward_count (p : List Stmt) (h : HostState)
    (he : h.inErrorState = false) (hy : h.pos.y ≤ COLS - 1) :
    (runProgram p h).pos.y = min (h.pos.y + countMoves p) (COLS - 1) ∧
      ((runProgram p h).inErrorState = true ↔ COLS - 1 < h.pos.y + countMoves p) := by
  have hC : COLS = 3 := rfl
  induction p generalizing h with
  | nil =>
    simp only [runProgram, countMoves, he]
    constructor
    · omega
    · simp only [Bool.false_eq_true, false_iff]
      omega
  | cons st rest ih =>
    cases st with
    | move =>
      simp only [runProgram, execStmt, countMoves]
      by_cases hlt : h.pos.y < COLS - 1
      · have he2 : (moveForward h).inErrorState = false := by
          simp [moveForward, he, hlt]
        have hyeq : (moveForward h).pos.y = h.pos.y + 1 := by
          simp [moveForward, he, hlt]
        obtain ⟨ha, hb⟩ := ih (moveForward h) he2 (by rw [hyeq]; omega)
        rw [ha, hb, hyeq]
        exact ⟨by omega, by omega⟩
      · have herr : (moveForward h).inErrorState = true := by
          simp [moveForward, he, hlt]
        have hpos : (moveForward h).pos = h.pos := by
          simp [moveForward, he, hlt]
        obtain ⟨ha, hb⟩ := runProgram_error_frame rest (moveForward h) herr
        rw [ha, hb, hpos]
        exact ⟨by omega, by simp only [true_iff]; omega⟩
    | alertCall t =>
      simp only [runProgram, execStmt, countMoves]
      have := ih (wrapperAlert t h) (by simp [wrapperAlert, he])
        (by simpa [wrapperAlert] using hy)
      simpa [wrapperAlert] using this
    | wait n =>
      simp only [runProgram, execStmt, countMoves]
      exact ih h he hy

/-- Witness for C1: four forward moves from the start position end at
`y = COLS - 1 = 2` with the error flag set (`0 + 4` exceeds the bound). -/
theorem runProgram_moveForward_count_witness :
    (runProgram [Stmt.move, Stmt.move, Stmt.move, Stmt.move] initialWorld.host).pos.y =
      min (initialWorld.host.pos.y +
        countMoves [Stmt.move, Stmt.move, Stmt.move, Stmt.move]) (COLS - 1) ∧
      ((runProgram [Stmt.move, Stmt.move, Stmt.move, Stmt.move]
          initialWorld.host).inErrorState = true ↔
        COLS - 1 < initialWorld.host.pos.y +
          countMoves [Stmt.move, Stmt.move, Stmt.move, Stmt.move]) :=
  runProgram_moveForward_count [Stmt.move, Stmt.move, Stmt.move, Stmt.move]
    initialWorld.host rfl (by decide)

/-! ### C2: the goal scenario -/

/-- C2 counterexample: the three-move run from `(0,0)` ends at `(0,2)` but
with the error flag SET and the overshoot alert — the third `moveForward`
call finds `y = COLS - 1` already and takes the error branch, and
`checkGoalReached` is then silent, so the goal-reached message is never
emitted and the error flag is not clear. -/
theorem three_moves_overshoot :
    (fireRunner (runCode [Stmt.move, Stmt.move, Stmt.move] initialWorld)).host.pos =
        { x := 0, y := 2 } ∧
      (fireRunner (runCode [Stmt.move, Stmt.move, Stmt.move] initialWorld)).host.inErrorState =
        true ∧
      (fireRunner (runCode [Stmt.move, Stmt.move, Stmt.move] initialWorld)).host.alerts =
        ["uh oh! You have gone too far! Please try again."] :=
  ⟨rfl, rfl, rfl⟩

/-- C2 amended: from `(0,0)` with goal `(0,2)`, the run of exactly TWO
`moveForward` calls ends at `(0,2)` with the goal-reached message and the
error flag clear; the three-move run ends at `(0,2)` with the error flag
set and only the overshoot message. -/
theorem two_moves_reach_goal :
    (fireRunner (runCode [Stmt.move, Stmt.move] initialWorld)).host.pos =
        { x := 0, y := 2 } ∧
      (fireRunner (runCode [Stmt.move, Stmt.move] initialWorld)).host.inErrorState = false ∧
      (fireRunner (runCode [Stmt.move, Stmt.move] initialWorld)).host.alerts =
        ["You have reached the goal!"] ∧
      (fireRunner (runCode [Stmt.move, Stmt.move, Stmt.move] initialWorld)).host.inErrorState =
        true ∧
      (fireRunner (runCode [Stmt.move, Stmt.move, Stmt.move] initialWorld)).host.alerts =
        ["uh oh! You have gone too far! Please try again."] :=
  ⟨rfl, rfl, rfl, rfl, rfl⟩


/-! ### C3: behaviour after an out-of-bounds move -/

/-- C3 counterexample: after an out-of-bounds move the `alert` wrapper is
NOT a no-op — it has no error-state check and still appends its text to
`outputArea.value`, so not every further synchronous host call leaves the
host state and the output unchanged. -/
theorem alert_not_noop_after_overshoot :
    (moveForward boundaryHost).inErrorState = true ∧
      wrapperAlert "hi" (moveForward boundaryHost) ≠ moveForward boundaryHost := by
  exact ⟨rfl, by decide⟩

/-- C3 amended: an out-of-bounds `moveForward` sets the error flag and
emits the overshoot message; every further `moveForward` call is a no-op
until reset (which clears the flag); `alert` calls, however, leave the
position and error flag unchanged but still append their text to the
output. -/
theorem overshoot_error_state_behavior (h : HostState) (t : String)
    (he : h.inErrorState = false) (hy : h.pos.y = COLS - 1) :
    (moveForward h).inErrorState = true ∧
      (moveForward h).alerts =
        h.alerts ++ ["uh oh! You have gone too far! Please try again."] ∧
      moveForward (moveForward h) = moveForward h ∧
      (wrapperAlert t (moveForward h)).pos = (moveForward h).pos ∧
      (wrapperAlert t (moveForward h)).inErrorState = true ∧
      (wrapperAlert t (moveForward h)).output = (moveForward h).output ++ "\n" ++ t ∧
      (resetState (moveForward h)).inErrorState = false := by
  have hnlt : ¬ h.pos.y < COLS - 1 := by omega
  have herr : (moveForward h).inErrorState = true := by simp [moveForward, he, hnlt]
  refine ⟨herr, by simp [moveForward, he, hnlt], moveForward_error_noop _ herr,
    by simp [wrapperAlert], by simp [wrapperAlert, herr], by simp [wrapperAlert],
    by simp [resetState]⟩

/-- Witness for the amended C3, at the boundary state `(0,2)`. -/
theorem overshoot_error_state_behavior_witness :
    (moveForward boundaryHost).inErrorState = true ∧
      (moveForward boundaryHost).alerts =
        boundaryHost.alerts ++ ["uh oh! You have gone too far! Please try again."] ∧
      moveForward (moveForward boundaryHost) = moveForward boundaryHost ∧
      (wrapperAlert "hi" (moveForward boundaryHost)).pos = (moveForward boundaryHost).pos ∧
      (wrapperAlert "hi" (moveForward boundaryHost)).inErrorState = true ∧
      (wrapperAlert "hi" (moveForward boundaryHost)).output =
        (moveForward boundaryHost).output ++ "\n" ++ "hi" ∧
      (resetState (moveForward boundaryHost)).inErrorState = false :=
  overshoot_error_state_behavior boundaryHost "hi" rfl rfl

/-! ### The shape of a run request -/

/-- What `runCode` does, in one equation: reset everything, then install a
fresh evaluator for the new program and schedule it.  (The
`!myInterpreter` guard is dead: `resetState` has just dropped the
handle.) -/
theorem runCode_eq (p : List Stmt) (w : World) :
    runCode p w =
      { host := resetState w.host,
        myInterpreter := some { id := w.nextId, remaining := p },
        runnerPending := true,
        runButtonDisabled := true,
        nextId := w.nextId + 1 } := by
  simp [runCode, resetStateWorld, resetStepUi]

/-! ### C4: a run request while a run is active -/

/-- C4 counterexample: with a run active (handle present, the program
already moved the character to `y = 1`), a new run request is NOT
ignored: it resets the host state back to `y = 0` and replaces the active
evaluator with a fresh one. -/
theorem run_request_not_ignored :
    midRunWorld.myInterpreter.isSome = true ∧
      midRunWorld.host.pos.y = 1 ∧
      (runCode [] midRunWorld).host.pos.y = 0 ∧
      (runCode [] midRunWorld).myInterpreter ≠ midRunWorld.myInterpreter := by
  decide

/-- C4 amended: a run request made while a run is active is not ignored —
it discards the active evaluator (the new handle is a fresh one), resets
the host state to `START_STATE` with the error flag clear, and schedules a
new run of the requested program. -/
theorem run_request_cancels_and_restarts (w : World) (p : List Stmt) (it : Interp)
    (_hact : w.myInterpreter = some it) (hid : it.id < w.nextId) :
    (runCode p w).host.pos = START_STATE ∧
      (runCode p w).host.inErrorState = false ∧
      (runCode p w).myInterpreter = some { id := w.nextId, remaining := p } ∧
      (runCode p w).myInterpreter ≠ some it ∧
      (runCode p w).nextId = w.nextId + 1 ∧
      (runCode p w).runnerPending = true := by
  rw [runCode_eq]
  refine ⟨rfl, rfl, rfl, ?_, rfl, rfl⟩
  intro hEq
  have h2 : ({ id := w.nextId, remaining := p } : Interp) = it := by
    simpa using hEq
  have h3 : it.id = w.nextId := by rw [← h2]
  omega

/-- Witness for the amended C4, on the concrete mid-run world. -/
theorem run_request_cancels_and_restarts_witness :
    (runCode [] midRunWorld).host.pos = START_STATE ∧
      (runCode [] midRunWorld).host.inErrorState = false ∧
      (runCode [] midRunWorld).myInterpreter =
        some { id := midRunWorld.nextId, remaining := [] } ∧
      (runCode [] midRunWorld).myInterpreter ≠
        some { id := 0, remaining := [Stmt.move] } ∧
      (runCode [] midRunWorld).nextId = midRunWorld.nextId + 1 ∧
      (runCode [] midRunWorld).runnerPending = true :=
  run_request_cancels_and_restarts midRunWorld [] { id := 0, remaining := [Stmt.move] }
    (by decide) (by decide)

/-! ### C5: completion of a run -/

/-- C5 counterexample: after the one-move program completes, the handle is
NOT released — `myInterpreter` still holds the evaluator and the run
button is still disabled — so the loop does not return the system to a
handle-free idle state by itself. -/
theorem completion_keeps_handle :
    (fireRunner (runCode [Stmt.move] initialWorld)).myInterpreter.isSome = true ∧
      (fireRunner (runCode [Stmt.move] initialWorld)).runButtonDisabled = true := by
  decide

/-- C5 amended: when the evaluator reports no more work, the runner
invokes the goal check exactly once and stops rescheduling, but it does
NOT release the execution handle (nor re-enable the run button): a
further runner firing is a no-op, and the handle is only dropped by the
next reset or run request (each of which begins with the reset). -/
theorem completion_invokes_goal_check_once (w : World) (it : Interp)
    (hp : w.runnerPending = true) (hi : w.myInterpreter = some it)
    (hc : (interpRun it.remaining w.host).2.2 = false) :
    fireRunner w =
      { w with host := checkGoalReached (interpRun it.remaining w.host).2.1,
               myInterpreter :=
                 some { it with remaining := (interpRun it.remaining w.host).1 },
               runnerPending := false } ∧
      (fireRunner w).myInterpreter.isSome = true ∧
      (fireRunner w).runButtonDisabled = w.runButtonDisabled ∧
      fireRunner (fireRunner w) = fireRunner w ∧
      (resetStateWorld (fireRunner w)).myInterpreter = none := by
  have h1 : fireRunner w =
      { w with host := checkGoalReached (interpRun it.remaining w.host).2.1,
               myInterpreter :=
                 some { it with remaining := (interpRun it.remaining w.host).1 },
               runnerPending := false } := by
    simp [fireRunner, hp, runnerStep, hi, hc]
  refine ⟨h1, ?_, ?_, ?_, ?_⟩
  · rw [h1]
    rfl
  · rw [h1]
  · rw [h1]
    simp [fireRunner]
  · rw [h1]
    simp [resetStateWorld, resetStepUi]

/-- Witness for the amended C5: the empty program completes on its first
slice. -/
theorem completion_invokes_goal_check_once_witness :
    fireRunner (runCode [] initialWorld) =
      { runCode [] initialWorld with
          host := checkGoalReached
            (interpRun [] (runCode [] initialWorld).host).2.1,
          myInterpreter :=
            some { id := 0, remaining := (interpRun [] (runCode [] initialWorld).host).1 },
          runnerPending := false } ∧
      (fireRunner (runCode [] initialWorld)).myInterpreter.isSome = true ∧
      (fireRunner (runCode [] initialWorld)).runButtonDisabled =
        (runCode [] initialWorld).runButtonDisabled ∧
      fireRunner (fireRunner (runCode [] initialWorld)) =
        fireRunner (runCode [] initialWorld) ∧
      (resetStateWorld (fireRunner (runCode [] initialWorld))).myInterpreter = none :=
  completion_invokes_goal_check_once (runCode [] initialWorld)
    { id := 0, remaining := [] } rfl rfl rfl

/-! ### C6: at most one live evaluator -/

/-- C6: two run requests in succession leave exactly one active execution
handle — the single `myInterpreter` slot holds the second request's fresh
evaluator, and the first request's evaluator is no longer referenced. -/
theorem single_active_handle (w : World) (p q : List Stmt) :
    activeHandleCount (runCode q (runCode p w)) = 1 ∧
      (runCode q (runCode p w)).myInterpreter =
        some { id := w.nextId + 1, remaining := q } ∧
      (runCode p w).myInterpreter = some { id := w.nextId, remaining := p } := by
  rw [runCode_eq q (runCode p w), runCode_eq p w]
  exact ⟨rfl, rfl, rfl⟩

/-! ### C8: every run request resets first -/

/-- C8: right after any run request, and before any of the program has
executed, the position is `START_STATE`, the error flag is clear, the
scheduled evaluator is a fresh one still holding the whole program, and
whatever handle or pending resumption a previous run had is gone. -/
theorem run_request_resets_first (w : World) (p : List Stmt) :
    (runCode p w).host.pos = START_STATE ∧
      (runCode p w).host.inErrorState = false ∧
      (runCode p w).myInterpreter = some { id := w.nextId, remaining := p } ∧
      (runCode p w).runnerPending = true := by
  rw [runCode_eq]
  exact ⟨rfl, rfl, rfl, rfl⟩

/-! ### Frame lemmas for the reachable-state invariants -/

/-- `moveForward` never touches the `x`-coordinate. -/
theorem moveForward_pos_x (h : HostState) : (moveForward h).pos.x = h.pos.x := by
  unfold moveForward
  split
  · rfl
  · split <;> rfl

/-- No API call touches the `x`-coordinate. -/
theorem execStmt_pos_x (st : Stmt) (h : HostState) : (execStmt st h).pos.x = h.pos.x := by
  cases st <;> simp [execStmt, wrapperAlert, moveForward_pos_x]

/-- An interpreter slice never touches the `x`-coordinate. -/
theorem interpRun_pos_x (p : List Stmt) (h : HostState) :
    (interpRun p h).2.1.pos.x = h.pos.x := by
  induction p generalizing h with
  | nil => rfl
  | cons st rest ih =>
    cases st with
    | move => rw [interpRun, ih, moveForward_pos_x]
    | alertCall t => rw [interpRun, ih]; rfl
    | wait n => rfl

/-- The goal check never moves the character. -/
theorem checkGoalReached_pos (h : HostState) : (checkGoalReached h).pos = h.pos := by
  unfold checkGoalReached
  split
  · rfl
  · split <;> rfl

/-- One event of the loop preserves `x = 0`. -/
theorem stepEv_pos_x (w : World) (e : Ev) (hx : w.host.pos.x = 0) :
    (stepEv w e).host.pos.x = 0 := by
  cases e with
  | runReq p => rw [stepEv, runCode_eq]; rfl
  | resetReq => rfl
  | tick =>
    show (fireRunner w).host.pos.x = 0
    unfold fireRunner
    split
    · unfold runnerStep
      cases hI : w.myInterpreter with
      | none => simpa [hI] using hx
      | some it =>
        simp only [hI]
        split
        · simpa [interpRun_pos_x] using hx
        · simpa [checkGoalReached_pos, interpRun_pos_x] using hx
    · exact hx

/-- Any event sequence from a world with `x = 0` keeps `x = 0`. -/
theorem foldl_stepEv_pos_x (es : List Ev) (w : World) (hx : w.host.pos.x = 0) :
    (es.foldl stepEv w).host.pos.x = 0 := by
  induction es generalizing w with
  | nil => exact hx
  | cons e rest ih => exact ih (stepEv w e) (stepEv_pos_x w e hx)

/-! ### C9: the `x`-coordinate is never modified -/

/-- C9: `moveForward` leaves the `x`-coordinate unchanged in every state
(error state included), and consequently in every world reachable from
startup by run requests, resets and runner firings, `x` still equals
`START_STATE.x`. -/
theorem moveForward_never_changes_x :
    (∀ h : HostState, (moveForward h).pos.x = h.pos.x) ∧
      (∀ es : List Ev, (runEvents es).host.pos.x = START_STATE.x) :=
  ⟨moveForward_pos_x, fun es => foldl_stepEv_pos_x es initialWorld rfl⟩

/-- `moveForward` keeps the `y`-coordinate inside the grid. -/
theorem moveForward_y_le (h : HostState) (hy : h.pos.y ≤ COLS - 1) :
    (moveForward h).pos.y ≤ COLS - 1 := by
  have hC : COLS = 3 := rfl
  cases he : h.inErrorState with
  | true => rw [moveForward_error_noop h he]; exact hy
  | false =>
    by_cases hlt : h.pos.y < COLS - 1
    · simp only [moveForward, he, Bool.false_eq_true, if_false, hlt, if_true]
      omega
    · simpa [moveForward, he, hlt] using hy

/-- Every API call keeps the `y`-coordinate inside the grid. -/
theorem execStmt_y_le (st : Stmt) (h : HostState) (hy : h.pos.y ≤ COLS - 1) :
    (execStmt st h).pos.y ≤ COLS - 1 := by
  cases st with
  | move => exact moveForward_y_le h hy
  | alertCall t => simpa [execStmt, wrapperAlert] using hy
  | wait n => exact hy

/-- An interpreter slice keeps the `y`-coordinate inside the grid. -/
theorem interpRun_y_le (p : List Stmt) (h : HostState) (hy : h.pos.y ≤ COLS - 1) :
    (interpRun p h).2.1.pos.y ≤ COLS - 1 := by
  induction p generalizing h with
  | nil => exact hy
  | cons st rest ih =>
    cases st with
    | move => exact ih (moveForward h) (moveForward_y_le h hy)
    | alertCall t => exact ih (wrapperAlert t h) (by simpa [wrapperAlert] using hy)
    | wait n => exact hy

/-- One event of the loop keeps the `y`-coordinate inside the grid. -/
theorem stepEv_y_le (w : World) (e : Ev) (hy : w.host.pos.y ≤ COLS - 1) :
    (stepEv w e).host.pos.y ≤ COLS - 1 := by
  cases e with
  | runReq p => rw [stepEv, runCode_eq]; exact Nat.zero_le _
  | resetReq => exact Nat.zero_le _
  | tick =>
    show (fireRunner w).host.pos.y ≤ COLS - 1
    unfold fireRunner
    split
    · unfold runnerStep
      cases hI : w.myInterpreter with
      | none => simpa [hI] using hy
      | some it =>
        simp only [hI]
        split
        · simpa using interpRun_y_le it.remaining w.host hy
        · simpa [checkGoalReached_pos] using interpRun_y_le it.remaining w.host hy
    · exact hy

/-- Any event sequence keeps the `y`-coordinate inside the grid. -/
theorem foldl_stepEv_y_le (es : List Ev) (w : World) (hy : w.host.pos.y ≤ COLS - 1) :
    (es.foldl stepEv w).host.pos.y ≤ COLS - 1 := by
  induction es generalizing w with
  | nil => exact hy
  | cons e rest ih => exact ih (stepEv w e) (stepEv_y_le w e hy)

/-! ### C10: the `y`-coordinate stays within the grid -/

/-- C10: `0 ≤ y ≤ COLS - 1` holds at `START_STATE` and is preserved by
`moveForward` and `resetState` — also for calls made in the error state,
where `moveForward` leaves `y` unchanged — so it holds in every world
reachable from startup.  (`0 ≤ y` is inherent: `y` is a natural
number.) -/
theorem y_within_grid :
    START_STATE.y ≤ COLS - 1 ∧
      (∀ h : HostState, h.pos.y ≤ COLS - 1 → (moveForward h).pos.y ≤ COLS - 1) ∧
      (∀ h : HostState, (resetState h).pos.y ≤ COLS - 1) ∧
      (∀ h : HostState, h.inErrorState = true → (moveForward h).pos.y = h.pos.y) ∧
      (∀ es : List Ev, (runEvents es).host.pos.y ≤ COLS - 1) :=
  ⟨by decide, moveForward_y_le, fun _ => Nat.zero_le _,
    fun h he => by rw [moveForward_error_noop h he],
    fun es => foldl_stepEv_y_le es initialWorld (by decide)⟩

/-- Witness for C10 at the boundary state `(0,2)`: a `moveForward` there
(which overshoots) still leaves `y` within the grid, and a `moveForward`
in the resulting error state leaves `y` unchanged. -/
theorem y_within_grid_witness :
    (moveForward boundaryHost).pos.y ≤ COLS - 1 ∧
      (moveForward (moveForward boundaryHost)).pos.y = (moveForward boundaryHost).pos.y :=
  ⟨y_within_grid.2.1 boundaryHost (by decide),
    y_within_grid.2.2.2.1 (moveForward boundaryHost) (by decide)⟩

/-! ### Plumbing lemmas for the refined world -/

/-- A runner slice never touches the startup queue. -/
theorem runnerStepT_pendingStarts (w : WorldT) :
    (runnerStepT w).pendingStarts = w.pendingStarts := by
  unfold runnerStepT
  cases hI : w.myInterpreter with
  | none => simp [hI]
  | some it =>
    simp only [hI]
    split <;> rfl

/-- A polling-resumption firing never touches the startup queue. -/
theorem fireRunnerT_pendingStarts (w : WorldT) :
    (fireRunnerT w).pendingStarts = w.pendingStarts := by
  unfold fireRunnerT
  split
  · rw [runnerStepT_pendingStarts]
  · rfl

/-- Any number of polling-resumption firings never touches the startup
queue. -/
theorem iterate_fireRunnerT_pendingStarts (n : Nat) (w : WorldT) :
    (fireRunnerT^[n] w).pendingStarts = w.pendingStarts := by
  induction n generalizing w with
  | zero => rfl
  | succ n ih =>
    rw [Function.iterate_succ_apply, ih, fireRunnerT_pendingStarts]

/-- What a run request does in the refined world: reset everything the
reset can reach, disable the button, and append the startup callback —
which will outlive any later reset. -/
theorem runCodeT_eq (p : List Stmt) (w : WorldT) :
    runCodeT p w =
      { host := resetState w.host,
        myInterpreter := none,
        runnerPending := false,
        runButtonDisabled := true,
        nextId := w.nextId,
        pendingStarts := w.pendingStarts ++ [p] } := by
  simp [runCodeT, resetStateWorldT, resetStepUiT]

/-- Firing the oldest scheduled startup: install the evaluator for the
code that startup captured and run its first slice. -/
theorem fireStart_eq (p : List Stmt) (rest : List (List Stmt)) (w : WorldT)
    (hp : w.pendingStarts = p :: rest) :
    fireStart w =
      runnerStepT { w with pendingStarts := rest,
                           myInterpreter := some { id := w.nextId, remaining := p },
                           nextId := w.nextId + 1 } := by
  simp [fireStart, hp]

/-! ### C7: a cancelled run and the next fresh run -/

/-- C7 counterexample: run A (`[move]`) is requested and then cancelled by
a reset before its startup timeout fires; run B (`[]`) is then requested.
The orphaned startup — whose timeout id the source threw away, out of
reach of `clearTimeout(runnerPid)` — still fires and executes the
cancelled program, so at the moment run B's own startup fires the
position is `y = 1` rather than the pre-run value `y = 0`: run B observes
a host-state mutation made by the cancelled run A. -/
theorem cancelled_run_mutation_leaks :
    (runCodeT [Stmt.move] initialWorldT).host.pos.y = 0 ∧
      (fireStart (runCodeT [] (resetStateWorldT
          (runCodeT [Stmt.move] initialWorldT)))).host.pos.y = 1 ∧
      (fireStart (runCodeT [] (resetStateWorldT
          (runCodeT [Stmt.move] initialWorldT)))).pendingStarts = [[]] ∧
      (fireStart (fireStart (runCodeT [] (resetStateWorldT
          (runCodeT [Stmt.move] initialWorldT))))).host.pos.y = 1 := by
  decide

/-- C7 amended: provided run A has actually started — its startup timeout
has fired, so the startup queue is empty — cancelling it after any number
of slices and then requesting a fresh run B leaves nothing of A behind:
when B is scheduled, the position and error flag equal the values run A
itself started from (`START_STATE`, flag clear), A's evaluator handle and
pending resumption are gone, and B's startup is the only one queued.  A
run cancelled before its startup fires is not covered: its orphaned
startup still executes the cancelled program. -/
theorem active_cancelled_run_leaves_no_trace (w : WorldT) (pA pB : List Stmt) (n : Nat)
    (hq : w.pendingStarts = []) :
    (runCodeT pB (resetStateWorldT (fireRunnerT^[n]
          (fireStart (runCodeT pA w))))).host.pos = (runCodeT pA w).host.pos ∧
      (runCodeT pB (resetStateWorldT (fireRunnerT^[n]
          (fireStart (runCodeT pA w))))).host.inErrorState =
        (runCodeT pA w).host.inErrorState ∧
      (runCodeT pB (resetStateWorldT (fireRunnerT^[n]
          (fireStart (runCodeT pA w))))).host.pos = START_STATE ∧
      (runCodeT pB (resetStateWorldT (fireRunnerT^[n]
          (fireStart (runCodeT pA w))))).host.inErrorState = false ∧
      (runCodeT pB (resetStateWorldT (fireRunnerT^[n]
          (fireStart (runCodeT pA w))))).myInterpreter = none ∧
      (runCodeT pB (resetStateWorldT (fireRunnerT^[n]
          (fireStart (runCodeT pA w))))).runnerPending = false ∧
      (runCodeT pB (resetStateWorldT (fireRunnerT^[n]
          (fireStart (runCodeT pA w))))).pendingStarts = [pB] := by
  have hApos : (runCodeT pA w).host.pos = START_STATE := by
    rw [runCodeT_eq]
    rfl
  have hAerr : (runCodeT pA w).host.inErrorState = false := by
    rw [runCodeT_eq]
    rfl
  have hA : (runCodeT pA w).pendingStarts = [pA] := by
    rw [runCodeT_eq]
    simp [hq]
  have hS : (fireStart (runCodeT pA w)).pendingStarts = [] := by
    rw [fireStart_eq pA [] (runCodeT pA w) hA, runnerStepT_pendingStarts]
  have hres : (resetStateWorldT (fireRunnerT^[n]
      (fireStart (runCodeT pA w)))).pendingStarts = [] := by
    show (fireRunnerT^[n] (fireStart (runCodeT pA w))).pendingStarts = []
    rw [iterate_fireRunnerT_pendingStarts]
    exact hS
  rw [runCodeT_eq pB]
  refine ⟨?_, ?_, rfl, rfl, rfl, rfl, ?_⟩
  · rw [hApos]
    rfl
  · rw [hAerr]
    rfl
  · simp [hres]

/-- Witness for the amended C7: run A = `[move]` starts, completes in its
first slice, one further runner firing happens (a no-op), A is cancelled,
and the empty run B is requested. -/
theorem active_cancelled_run_leaves_no_trace_witness :
    (runCodeT [] (resetStateWorldT (fireRunnerT^[1]
          (fireStart (runCodeT [Stmt.move] initialWorldT))))).host.pos =
        (runCodeT [Stmt.move] initialWorldT).host.pos ∧
      (runCodeT [] (resetStateWorldT (fireRunnerT^[1]
          (fireStart (runCodeT [Stmt.move] initialWorldT))))).host.inErrorState =
        (runCodeT [Stmt.move] initialWorldT).host.inErrorState ∧
      (runCodeT [] (resetStateWorldT (fireRunnerT^[1]
          (fireStart (runCodeT [Stmt.move] initialWorldT))))).host.pos = START_STATE ∧
      (runCodeT [] (resetStateWorldT (fireRunnerT^[1]
          (fireStart (runCodeT [Stmt.move] initialWorldT))))).host.inErrorState = false ∧
      (runCodeT [] (resetStateWorldT (fireRunnerT^[1]
          (fireStart (runCodeT [Stmt.move] initialWorldT))))).myInterpreter = none ∧
      (runCodeT [] (resetStateWorldT (fireRunnerT^[1]
          (fireStart (runCodeT [Stmt.move] initialWorldT))))).runnerPending = false ∧
      (runCodeT [] (resetStateWorldT (fireRunnerT^[1]
          (fireStart (runCodeT [Stmt.move] initialWorldT))))).pendingStarts =
        [([] : List Stmt)] :=
  active_cancelled_run_leaves_no_trace initialWorldT [Stmt.move] [] 1 rfl
